import Mathlib

/-!
# Verification of the Yaxi X11 client core

Shallow embedding of the parts of the Yaxi crate that the specification's
claims talk about, together with proofs (or refutations) of those claims.

Each definition names its Rust source. Machine integers are modelled as
`Nat` with explicit `% 2^w` where wrap-around matters; fallible Rust code
returns `Except`.
-/

namespace Yaxi

/-- Atoms are opaque 32-bit identifiers (`display/mod.rs`, `struct Atom`).
We model the id directly. -/
abbrev Atom := Nat

/-- `Atom::is_null` (display/mod.rs): true iff the id is 0. -/
def atomIsNull (a : Atom) : Bool := a == 0

/-- The crate's error type (`display/error.rs`), restricted to the
constructors the claims exercise.  `unreachablePanic` and `todoPanic`
model the `unreachable!()` / `todo!()` macros, which abort instead of
returning an error. -/
inductive Err where
  | invalidDisplay
  | invalidProtocol (protocol : String)
  | invalidId
  | ranOutOfXid
  | invalidKeysym
  | terminated
  | timeout
  | setupFailed (reason : String)
  | streamError
  | event (detail : Nat) (sequence : Nat) (payload : List Nat)
  | unreachablePanic
  | todoPanic
  deriving DecidableEq, Repr

/-- Decidable equality for `Except`, so that concrete runs of the
embedded functions can be checked with `decide`. -/
instance {ε α : Type _} [DecidableEq ε] [DecidableEq α] : DecidableEq (Except ε α)
  | .ok a, .ok b =>
    if h : a = b then .isTrue (by rw [h])
    else .isFalse fun hc => h (by injection hc)
  | .error a, .error b =>
    if h : a = b then .isTrue (by rw [h])
    else .isFalse fun hc => h (by injection hc)
  | .ok _, .error _ => .isFalse fun hc => Except.noConfusion hc
  | .error _, .ok _ => .isFalse fun hc => Except.noConfusion hc

/-! ## Wire padding (`display/request.rs`, `display/mod.rs::Stream`) -/

/-- `request::pad` (display/request.rs line 703): `(4 - (len % 4)) % 4`. -/
def pad (len : Nat) : Nat := (4 - len % 4) % 4

/-- `Stream::send_pad` (display/mod.rs): writes the request bytes followed
by `pad(len)` zero bytes.  We model the bytes put on the wire. -/
def sendPadBytes (request : List Nat) : List Nat :=
  request ++ List.replicate (pad request.length) 0

/-- `Stream::recv` (display/mod.rs): reads exactly `size` bytes from the
stream; fails if the stream has fewer.  Returns the bytes read and the
rest of the stream. -/
def recv (input : List Nat) (size : Nat) : Except Err (List Nat × List Nat) :=
  if size ≤ input.length then .ok (input.take size, input.drop size)
  else .error .streamError

/-- `Stream::recv_str` (display/mod.rs lines 116-122): reads `size` bytes,
then reads `size % 4` further bytes (the source's idea of the pad), and
returns the first `size` bytes.  Returns the payload and the rest of the
stream. -/
def recvStr (input : List Nat) (size : Nat) : Except Err (List Nat × List Nat) := do
  let (bytes, rest) ← recv input size
  let (_, rest') ← recv rest (size % 4)
  .ok (bytes, rest')

/-! ## Resource-id allocator (`display/xid.rs`) -/

/-- The state of the global xid allocator (display/xid.rs, `struct Xid`). -/
structure Xid where
  base : Nat
  mask : Nat
  next : Nat
  deriving DecidableEq, Repr

/-- `Xid::new()` (display/xid.rs): the initial value of the static
allocator: `base: 0, mask: 69, next: 420`. -/
def Xid.init : Xid := ⟨0, 69, 420⟩

/-- `xid::setup(base, mask)` (display/xid.rs lines 39-46): stores the
server-assigned base and mask.  Note: it does NOT reset `next`. -/
def Xid.setup (base mask : Nat) (x : Xid) : Xid :=
  { x with base := base, mask := mask }

/-- `Xid::next` (display/xid.rs lines 27-35): increments the counter
(u32 wrap-around), then fails when `next >= mask`, else returns
`next | base`.  The increment persists in both branches. -/
def Xid.alloc (x : Xid) : Except Err Nat × Xid :=
  if (x.next + 1) % 2 ^ 32 ≥ x.mask then
    (.error .ranOutOfXid, { x with next := (x.next + 1) % 2 ^ 32 })
  else
    (.ok ((x.next + 1) % 2 ^ 32 ||| x.base), { x with next := (x.next + 1) % 2 ^ 32 })

/-- Repeated allocation: the state after `n` calls to `Xid.alloc`. -/
def Xid.allocN (x : Xid) (n : Nat) : Xid :=
  match n with
  | 0 => x
  | n + 1 => (Xid.allocN x n).alloc.2

end Yaxi

namespace Yaxi

/-! ## The reply queue (`proto/mod.rs`, `struct Queue`) -/

/-- The shared state of a `Queue<T>` (proto/mod.rs lines 137-142):
a FIFO of items and the error side channel (a `Vec<Error>`). -/
structure QueueState (T : Type) where
  queue : List T
  errors : List Err
  deriving DecidableEq, Repr

/-- `Queue::push` (proto/mod.rs lines 195-202): appends at the back. -/
def QueueState.push (q : QueueState T) (element : T) : QueueState T :=
  { q with queue := q.queue ++ [element] }

/-- `Queue::push_error` (proto/mod.rs lines 204-211): `Vec::push` appends
the error at the back of the error vector. -/
def QueueState.pushError (q : QueueState T) (error : Err) : QueueState T :=
  { q with errors := q.errors ++ [error] }

/-- `Queue::poll_error` (proto/mod.rs lines 213-216): `Vec::pop` removes
the LAST pending error, if any, and returns it as `Err`; otherwise `Ok`.
The observed error is consumed. -/
def QueueState.pollError (q : QueueState T) : Except Err Unit × QueueState T :=
  match q.errors.getLast? with
  | some e => (.error e, { q with errors := q.errors.dropLast })
  | none => (.ok (), q)

/-- `Queue::pop` (proto/mod.rs lines 176-181): polls the error channel,
then pops the front of the FIFO. -/
def QueueState.popFront (q : QueueState T) : Except Err (Option T) × QueueState T :=
  match q.pollError with
  | (.error e, q') => (.error e, q')
  | (.ok (), q') =>
    match q'.queue with
    | [] => (.ok none, q')
    | x :: xs => (.ok (some x), { q' with queue := xs })

end Yaxi

namespace Yaxi

/-! ## Sequence manager and the event listener (`proto/mod.rs`,
`display/mod.rs::EventListener`) -/

/-- `ReplyKind` (proto/mod.rs lines 248-266), without the optional
xinerama kinds. -/
inductive ReplyKind where
  | internAtom
  | getProperty
  | getWindowAttributes
  | queryPointer
  | getKeyboardMapping
  | getInputFocus
  | getGeometry
  | grabPointer
  | queryExtension
  | getSelectionOwner
  deriving DecidableEq, Repr

/-- `Sequence` (proto/mod.rs lines 268-272): a pending
(sequence id, expected reply kind) record. -/
structure Sequence where
  id : Nat
  kind : ReplyKind
  deriving DecidableEq, Repr

/-- `SequenceManager::get` (proto/mod.rs lines 294-301): finds the first
record with the given 16-bit id, removes it and returns it; with no match
it fails with `Error::InvalidId`. -/
def sequenceGet (sequences : List Sequence) (id : Nat) :
    Except Err (Sequence × List Sequence) :=
  match sequences with
  | [] => .error .invalidId
  | s :: rest =>
    if s.id = id then .ok (s, rest)
    else
      match sequenceGet rest id with
      | .ok (found, remaining) => .ok (found, s :: remaining)
      | .error e => .error e

/-- `GenericEvent` (display/request.rs): the 4-byte header every incoming
record starts with, plus the (abstract) bytes of the record's body. -/
structure GenericEvent where
  opcode : Nat
  detail : Nat
  sequence : Nat
  payload : List Nat
  deriving DecidableEq, Repr

/-- A typed reply pushed by the listener: the pending record's kind
together with the (abstract) body bytes it decodes. -/
structure ReplyMsg where
  kind : ReplyKind
  payload : List Nat
  deriving DecidableEq, Repr

/-- The mutable state the listener thread works on: the pending-sequence
table, the reply queue and the event queue. -/
structure ListenerState where
  sequences : List Sequence
  replies : QueueState ReplyMsg
  events : List GenericEvent
  deriving DecidableEq, Repr

/-- `EventListener::handle_reply` (display/mod.rs lines 654-745): looks up
and removes the pending record for the header's sequence number (fatal
`InvalidId` if absent), decodes the body in the shape that record
dictates, and pushes the typed reply. -/
def handleReply (st : ListenerState) (ev : GenericEvent) : Except Err ListenerState := do
  let (sequence, rest) ← sequenceGet st.sequences ev.sequence
  .ok { st with
        sequences := rest
        replies := st.replies.push ⟨sequence.kind, ev.payload⟩ }

/-- `EventListener::handle_event` (display/mod.rs lines 749-1057):
dispatches on `opcode & 0b0111111`: 0 is an error record (pushed on the
reply queue's error channel), 1 is a reply, anything else is an event. -/
def handleEvent (st : ListenerState) (ev : GenericEvent) : Except Err ListenerState :=
  match ev.opcode &&& 63 with
  | 0 => .ok { st with
               replies := st.replies.pushError (.event ev.detail ev.sequence ev.payload) }
  | 1 => handleReply st ev
  | _ => .ok { st with events := st.events ++ [ev] }

/-- `EventListener::listen` (display/mod.rs lines 1060-1066): processes
incoming records until one fails; returns the state reached and the
terminating error, if any.  (The real loop never returns `Ok`; we model a
finite prefix of the incoming stream.) -/
def listen (msgs : List GenericEvent) (st : ListenerState) :
    ListenerState × Option Err :=
  match msgs with
  | [] => (st, none)
  | ev :: rest =>
    match handleEvent st ev with
    | .ok st' => listen rest st'
    | .error e => (st, some e)

/-- The listener thread body spawned in `Display::read_setup`
(display/mod.rs lines 583-589): when `listen` returns an error, posts it
on the reply queue's error channel. -/
def runListener (msgs : List GenericEvent) (st : ListenerState) : ListenerState :=
  match listen msgs st with
  | (st', none) => st'
  | (st', some e) => { st' with replies := st'.replies.pushError e }

end Yaxi

namespace Yaxi

/-! ## `Display::get_selection_owner` (display/mod.rs lines 450-464) -/

/-- Modelled from the spec: the decoded `GetSelectionOwner` reply struct
(`GetSelectionOwnerResponse`) is referenced but not defined under `src/`;
per the spec (and the X11 wire format) the reply carries the 32-bit owner
window id, `0` meaning "no owner". -/
structure GetSelectionOwnerResponse where
  owner : Nat
  deriving DecidableEq, Repr

/-- The typed replies `Display` waits on, restricted to the variant
`get_selection_owner` consumes (proto/mod.rs, `enum Reply`). -/
inductive TypedReply where
  | getSelectionOwner (response : GetSelectionOwnerResponse)
  | other (msg : ReplyMsg)
  deriving DecidableEq, Repr

/-- `Display::get_selection_owner` (display/mod.rs lines 450-464), as a
function of the reply received: `Reply::GetSelectionOwner(response) =>
Ok(response.owner)` - the owner id is returned unchanged, `0` included;
any other variant is `unreachable!()`. -/
def displayGetSelectionOwner (reply : TypedReply) : Except Err Nat :=
  match reply with
  | .getSelectionOwner response => .ok response.owner
  | .other _ => .error .unreachablePanic

/-- The spec's version of `get_selection_owner`
("`get_selection_owner(Atom) → Option<u32>`, server returns `0` ⇒
`None`"), written from the spec's words for comparison. -/
def specGetSelectionOwner (owner : Nat) : Option Nat :=
  if owner = 0 then none else some owner

/-! ## `Keysym::character` (keyboard/mod.rs lines 89-98) -/

/-- The possible outcomes of `Keysym::character`: a character code, the
`InvalidKeysym` error, or the `todo!()` panic. -/
inductive CharOutcome where
  | ok (code : Nat)
  | invalidKeysym
  | panicTodo
  deriving DecidableEq, Repr

/-- `char::from_u32` succeeds exactly on Unicode scalar values. -/
def isValidCharCode (n : Nat) : Prop := n < 0xD800 ∨ (0xE000 ≤ n ∧ n < 0x110000)

instance (n : Nat) : Decidable (isValidCharCode n) := by
  unfold isValidCharCode; infer_instance

/-- `Keysym::character` (keyboard/mod.rs lines 89-98): matches on the
character-set byte `(value & 0xff00) >> 8`; for `LATIN1` (0) it returns
`char::from_u32((value & 0xff) + 0x20 - 32)` (u32 arithmetic, no
underflow since the subtrahend equals the added `0x20`), with
`InvalidKeysym` when `from_u32` fails; every other set hits
`todo!("character set not yet implemented")`. -/
def character (value : Nat) : CharOutcome :=
  let v := value % 2 ^ 32
  if v / 2 ^ 8 % 2 ^ 8 = 0 then
    let code := v % 2 ^ 8 + 0x20 - 32
    if isValidCharCode code then .ok code else .invalidKeysym
  else .panicTodo

end Yaxi

namespace Yaxi

/-! ## `$DISPLAY` parsing (display/parse.rs) -/

/-- `Protocol` (display/parse.rs): which transport the connection uses. -/
inductive Protocol where
  | tcpSocket
  | unixSocket
  deriving DecidableEq, Repr

/-- `Protocol::from` (display/parse.rs lines 19-27): lower-cases the
string, strips trailing colons, and accepts only "unix" and "tcp". -/
def protocolFrom (value : List Char) : Except Err Protocol :=
  let trimmed := (value.map Char.toLower).reverse.dropWhile (· = ':') |>.reverse
  if trimmed = "unix".data then .ok .unixSocket
  else if trimmed = "tcp".data then .ok .tcpSocket
  else .error (.invalidProtocol (String.mk value))

/-- `DisplayInfo` (display/parse.rs lines 32-38). -/
structure DisplayInfo where
  host : List Char
  protocol : Protocol
  display : Nat
  screen : Nat
  deriving DecidableEq, Repr

/-- `DisplayInfo::default()`: empty host, unix socket, display 0, screen 0. -/
def DisplayInfo.default : DisplayInfo := ⟨[], .unixSocket, 0, 0⟩

/-- `Iter::take_while` (display/parse.rs lines 70-78): consumes the
longest prefix satisfying the predicate, leaving the rest (the first
non-matching character is only peeked, not consumed). -/
def iterTakeWhile (f : Char → Bool) (chars : List Char) : List Char × List Char :=
  (chars.takeWhile f, chars.dropWhile f)

/-- `Iter::next` (display/parse.rs lines 84-86): the next character, or
`InvalidDisplay` at the end of input. -/
def iterNext (chars : List Char) : Except Err (Char × List Char) :=
  match chars with
  | [] => .error .invalidDisplay
  | c :: rest => .ok (c, rest)

/-- `str::parse::<u16>`: optional sign, at least one ASCII digit, value
within `u16`.  (Rust's `u16: FromStr` accepts an optional leading `+`.) -/
def parseU16 (chars : List Char) : Except Err Nat :=
  let digits := match chars with
    | '+' :: rest => rest
    | other => other
  if digits ≠ [] ∧ digits.all Char.isDigit then
    let value := digits.foldl (fun acc c => acc * 10 + (c.toNat - '0'.toNat)) 0
    if value < 2 ^ 16 then .ok value else .error .invalidDisplay
  else .error .invalidDisplay

/-- `State::Screen` of `Parser::parse` (display/parse.rs): reads the
digits up to a `.` (or the end) and parses them as the screen number. -/
def parserScreen (info : DisplayInfo) (chars : List Char) : Except Err DisplayInfo := do
  let (buf, _) := iterTakeWhile (· ≠ '.') chars
  let screen ← parseU16 buf
  .ok { info with screen := screen }

/-- `State::Display` of `Parser::parse` (display/parse.rs): reads the
digits up to a `.` (or the end) as the display number; a following `.`
switches to the screen state, anything else finishes. -/
def parserDisplay (info : DisplayInfo) (chars : List Char) : Except Err DisplayInfo := do
  let (buf, rest) := iterTakeWhile (· ≠ '.') chars
  let displayNum ← parseU16 buf
  let info' := { info with display := displayNum }
  match rest with
  | '.' :: rest' => parserScreen info' rest'
  | _ => .ok info'

/-- `State::Protocol` of `Parser::parse` (display/parse.rs): reads the
protocol name up to `:`, converts it, consumes the `:` (failing at end of
input), and proceeds to the display number. -/
def parserProtocol (info : DisplayInfo) (chars : List Char) : Except Err DisplayInfo := do
  let (buf, rest) := iterTakeWhile (· ≠ ':') chars
  let protocol ← protocolFrom buf
  let (_, rest') ← iterNext rest
  parserDisplay { info with protocol := protocol } rest'

/-- `State::Unix` of `Parser::parse` (display/parse.rs): the whole rest of
the input is the socket path. -/
def parserUnix (info : DisplayInfo) (chars : List Char) : Except Err DisplayInfo :=
  .ok { info with host := chars }

/-- `Parser::parse` (display/parse.rs lines 113-172), starting in
`State::Host`: reads the host up to `:` or `/`, then dispatches on
`(host, next char)`: host "unix" enters the unix-path state, `:` the
display state, `/` the protocol state.  The `unreachable!()` arm cannot
fire (after `take_while` the next character, if any, is `:` or `/`). -/
def parserParse (s : List Char) : Except Err DisplayInfo := do
  let (hostBuf, rest) := iterTakeWhile (fun c => c ≠ ':' ∧ c ≠ '/') s
  let (c, rest') ← iterNext rest
  let info := { DisplayInfo.default with host := hostBuf }
  if hostBuf = "unix".data then parserUnix info rest'
  else if c = ':' then parserDisplay info rest'
  else if c = '/' then parserProtocol info rest'
  else .error .unreachablePanic

/-- `parse::parse` (display/parse.rs lines 176-181): FIRST reads the
`DISPLAY` environment variable, failing with `InvalidDisplay` when it is
unset, and only then parses the caller's string (falling back to the
environment value).  `envDisplay` models `env::var("DISPLAY")`. -/
def parse (envDisplay : Option (List Char)) (display : Option (List Char)) :
    Except Err DisplayInfo :=
  match envDisplay with
  | none => .error .invalidDisplay
  | some env => parserParse (display.getD env)

end Yaxi


namespace Yaxi

/-! ## Clipboard cache and selection handling (clipboard/model.rs,
clipboard/atoms.rs, clipboard/event.rs) -/

/-- `ProtocolAtoms` (clipboard/atoms.rs): the interned protocol atoms the
clipboard uses.  The concrete ids are assigned by the server at startup. -/
structure ProtocolAtoms where
  targets : Atom
  multiple : Atom
  timestamp : Atom
  targetSizes : Atom
  saveTargets : Atom
  delete : Atom
  insertProperty : Atom
  insertSelection : Atom
  incr : Atom
  noneAtom : Atom
  integer : Atom
  deriving DecidableEq, Repr

/-- `Atoms::is_side_effect_target` (clipboard/atoms.rs lines 106-113). -/
def isSideEffectTarget (p : ProtocolAtoms) (target : Atom) : Bool :=
  target == p.saveTargets || target == p.delete || target == p.insertProperty
    || target == p.insertSelection || target == p.multiple || target == p.incr

/-- `ClipboardData` (clipboard/model.rs): immutable bytes, format atom,
timestamp. -/
structure ClipboardData where
  bytes : List Nat
  format : Atom
  timestamp : Nat
  deriving DecidableEq, Repr

/-- The clipboard `Cache` contents (clipboard/model.rs): a map from
`(selection, target)` to the cached data, modelled as an association
list (`HashMap` iteration order is arbitrary; we fix the list order). -/
abbrev Cache := List ((Atom × Atom) × ClipboardData)

/-- `Cache::get` semantics: first entry with the given key. -/
def cacheGet (cache : Cache) (selection target : Atom) : Option ClipboardData :=
  (cache.find? (fun e => e.1 == (selection, target))).map (·.2)

/-- `Cache::clear_selection` (clipboard/model.rs lines 107-116):
`retain(|k, _| k.0 != selection)` - keeps exactly the entries whose first
key component differs from the selection. -/
def clearSelection (cache : Cache) (selection : Atom) : Cache :=
  cache.filter (fun e => e.1.1 ≠ selection)

/-- `EventHandler::handle_selection_clear` (clipboard/event.rs lines
629-645): logs, then calls `cache.clear_selection(selection)`. -/
def handleSelectionClear (cache : Cache) (_owner : Nat) (selection : Atom)
    (_time : Nat) : Cache :=
  clearSelection cache selection

/-- `Cache::get_targets` (clipboard/model.rs lines 137-153): the cached
targets of the selection that are not side-effect targets, followed by
the four special targets `MULTIPLE`, `SAVE_TARGETS`, `TARGETS`,
`TARGET_SIZES`. -/
def getTargets (p : ProtocolAtoms) (cache : Cache) (selection : Atom) : List Atom :=
  (cache.filter
      (fun e => e.1.1 == selection && !isSideEffectTarget p e.1.2)).map (·.1.2)
    ++ [p.multiple, p.saveTargets, p.targets, p.targetSizes]

/-- The spec's version of the advertised target set
("`{TARGETS, TIMESTAMP, MULTIPLE} ∪ {data.format for data in list}`"),
written from the spec's words for comparison with `getTargets`. -/
def specTargets (p : ProtocolAtoms) (cache : Cache) (selection : Atom) : List Atom :=
  [p.targets, p.timestamp, p.multiple]
    ++ (cache.filter (fun e => e.1.1 == selection)).map (·.2.format)

end Yaxi

namespace Yaxi

/-! ## Serving selection data: `EventHandler::send_data`
(clipboard/event.rs lines 647-715) -/

/-- `MAX_REGULAR_SIZE` (clipboard/event.rs line 18). -/
def MAX_REGULAR_SIZE : Nat := 65536

/-- `INCR_CHUNK_SIZE` (clipboard/event.rs line 19). -/
def INCR_CHUNK_SIZE : Nat := 4096

/-- `PropFormat` (window/mod.rs). -/
inductive PropFormat where
  | format8
  | format16
  | format32
  deriving DecidableEq, Repr

/-- `PropMode` (window/mod.rs). -/
inductive PropMode where
  | replace
  | prepend
  | appendMode
  deriving DecidableEq, Repr

/-- One `Window::change_property` call as issued by `send_data`: the
property, the type atom, the format, the mode and the data bytes. -/
structure PropWrite where
  property : Atom
  typeAtom : Atom
  format : PropFormat
  mode : PropMode
  data : List Nat
  deriving DecidableEq, Repr

/-- `u32::to_ne_bytes` on x86-64 (little endian). -/
def u32NeBytes (n : Nat) : List Nat :=
  [n % 2 ^ 8, n / 2 ^ 8 % 2 ^ 8, n / 2 ^ 16 % 2 ^ 8, n / 2 ^ 24 % 2 ^ 8]

/-- `slice::chunks(n)`: splits into consecutive chunks of `n` elements,
the last possibly shorter; the empty slice yields no chunks. -/
def chunksOf (n : Nat) (l : List α) : List (List α) :=
  if _ : l.length = 0 ∨ n = 0 then []
  else l.take n :: chunksOf n (l.drop n)
termination_by l.length
decreasing_by
  rename_i h
  push_neg at h
  simp only [List.length_drop]
  omega

/-- `EventHandler::send_data` (clipboard/event.rs lines 647-715), as the
trace of `change_property` calls it issues on the requestor window.  If
the requested property is the null atom the target atom is used instead.
Values above 64 KiB go through the INCR protocol: first a `Format32`
write of the 32-bit total size with type `INCR`, then the value in
4 KiB chunks (`Format8`, `Replace`, type = the data's format atom), then
one empty write; smaller values are written with a single call.  (The
final `SelectionNotify` send-event is not a property write and is not
part of the trace.) -/
def sendData (p : ProtocolAtoms) (data : ClipboardData) (property target : Atom) :
    List PropWrite :=
  if data.bytes.length > MAX_REGULAR_SIZE then
    ⟨if atomIsNull property then target else property, p.incr, .format32, .replace,
        u32NeBytes (data.bytes.length % 2 ^ 32)⟩
      :: ((chunksOf INCR_CHUNK_SIZE data.bytes).map
            (fun chunk => ⟨if atomIsNull property then target else property,
              data.format, .format8, .replace, chunk⟩)
          ++ [⟨if atomIsNull property then target else property, data.format,
                .format8, .replace, []⟩])
  else
    [⟨if atomIsNull property then target else property, data.format, .format8,
      .replace, data.bytes⟩]

/-- A sample assignment of server-interned protocol atoms (distinct ids),
used to evaluate the clipboard functions on concrete inputs. -/
def sampleAtoms : ProtocolAtoms :=
  ⟨100, 101, 102, 103, 104, 105, 106, 107, 108, 109, 110⟩

end Yaxi

namespace Yaxi

/-! ## Shared helper lemmas -/

/-- The second component of `Xid.alloc` does not depend on the branch. -/
theorem Xid.alloc_snd (x : Xid) :
    x.alloc.2 = { x with next := (x.next + 1) % 2 ^ 32 } := by
  unfold Xid.alloc
  split <;> rfl

/-- The allocator state after `k` calls following `setup` on the fresh
static allocator: base and mask as configured, counter at
`(420 + k) mod 2^32`. -/
theorem Xid.allocN_setup_state (b m k : Nat) :
    (Xid.setup b m Xid.init).allocN k = ⟨b, m, (420 + k) % 2 ^ 32⟩ := by
  induction k with
  | zero =>
    show (⟨b, m, 420⟩ : Xid) = ⟨b, m, (420 + 0) % 2 ^ 32⟩
    norm_num
  | succ k ih =>
    show ((Xid.setup b m Xid.init).allocN k).alloc.2 = _
    rw [ih, Xid.alloc_snd]
    have h32 : (2 : Nat) ^ 32 = 4294967296 := by norm_num
    congr 1
    dsimp only
    rw [h32]
    omega

end Yaxi

namespace Yaxi

/-! ## Claim theorems -/

/-- C1: evaluating `Display::get_selection_owner` at the failing input, a
`GetSelectionOwner` reply whose owner field is `0`: the source returns
`Ok(0)` - the raw 32-bit owner id unchanged - while the spec (and the
clipboard `Context`, which types the call as `Option<u32>`) requires
`None` for owner `0`. -/
theorem getSelectionOwner_zero_passed_through :
    displayGetSelectionOwner (.getSelectionOwner ⟨0⟩) = .ok 0 ∧
      specGetSelectionOwner 0 = none := by
  decide

/-- C3 counterexample: after a single `push_error` on a queue with no
pending error, the first `poll_error` returns the error but the second
returns `Ok(())`: the error is consumed, so it is NOT observed by every
subsequent waiter as the claim states. -/
theorem pollError_second_call_misses_error :
    (((⟨[], []⟩ : QueueState Nat).pushError .terminated).pollError).1 =
        .error .terminated ∧
      ((((⟨[], []⟩ : QueueState Nat).pushError .terminated).pollError).2.pollError).1 =
        .ok () := by
  decide

/-- C3 (amended): after `push_error(e)` on a queue with no pending errors,
exactly one subsequent `poll_error` (or the error check inside
`wait`/`pop`) observes `e`; the observation removes the error, so a
second call made with no new error posted in between returns success
instead of the error. -/
theorem pollError_consumes_posted_error (T : Type) (q : QueueState T) (e : Err)
    (h : q.errors = []) :
    (q.pushError e).pollError.1 = .error e ∧
      ((q.pushError e).pollError.2).errors = [] ∧
      (((q.pushError e).pollError.2).pollError).1 = .ok () ∧
      (q.pushError e).popFront.1 = .error e ∧
      ((q.pushError e).popFront.2).errors = [] := by
  simp [QueueState.pushError, QueueState.pollError, QueueState.popFront, h]

/-- Witness for `pollError_consumes_posted_error` at a concrete queue. -/
theorem pollError_consumes_posted_error_witness :
    (⟨[5], []⟩ : QueueState Nat).errors = [] ∧
      ((⟨[5], []⟩ : QueueState Nat).pushError .timeout).pollError.1 =
        .error .timeout := by
  exact ⟨rfl, (pollError_consumes_posted_error Nat ⟨[5], []⟩ .timeout rfl).1⟩

/-- C4 counterexample: with the server-assigned range
`base = 0x200000, mask = 0x1FFFFF`, the first id handed out after
`setup` is `base | 421` (the static counter starts at 420 and `setup`
does not reset it), not `base | 1` as the claim states. -/
theorem xid_first_id_is_not_base_or_one :
    ((Xid.setup 2097152 2097151 Xid.init).alloc).1 = .ok (421 ||| 2097152) ∧
      (421 ||| 2097152 : Nat) ≠ (2097152 ||| 1 : Nat) := by
  decide

/-- C4 (amended): after `setup(base, mask)` on the freshly initialised
allocator (whose static counter starts at 420 and is not reset by
`setup`), the `k+1`-st call to `next()` hands out `base | (421 + k)` as
long as `421 + k < mask`; the counter increases by exactly one per call
with no recycling, and the call fails with the out-of-ids error exactly
when the incremented counter has reached `mask` (shown for any `j`-th
call with `mask ≤ 421 + j < 2^32`). -/
theorem xid_next_after_setup (base mask k j : Nat)
    (hk : 421 + k < mask) (hm32 : mask ≤ 2 ^ 32)
    (hj : mask ≤ 421 + j) (hj32 : 421 + j < 2 ^ 32) :
    (((Xid.setup base mask Xid.init).allocN k).alloc).1 = .ok ((421 + k) ||| base) ∧
      ((Xid.setup base mask Xid.init).allocN (k + 1)).next = 421 + k ∧
      (((Xid.setup base mask Xid.init).allocN j).alloc).1 = .error .ranOutOfXid := by
  have h32 : (2 : Nat) ^ 32 = 4294967296 := by norm_num
  have hkfix : (420 + k) % 2 ^ 32 = 420 + k := Nat.mod_eq_of_lt (by omega)
  have hjfix : (420 + j) % 2 ^ 32 = 420 + j := Nat.mod_eq_of_lt (by omega)
  have hkmod : (420 + k + 1) % 2 ^ 32 = 421 + k := by rw [h32]; omega
  have hjmod : (420 + j + 1) % 2 ^ 32 = 421 + j := by rw [h32]; omega
  refine ⟨?_, ?_, ?_⟩
  · rw [Xid.allocN_setup_state]
    unfold Xid.alloc
    simp only [hkfix, hkmod]
    rw [if_neg (by omega)]
  · rw [Xid.allocN_setup_state]
    show (420 + (k + 1)) % 2 ^ 32 = 421 + k
    rw [h32]
    omega
  · rw [Xid.allocN_setup_state]
    unfold Xid.alloc
    simp only [hjfix, hjmod]
    rw [if_pos (by omega)]

/-- Witness for `xid_next_after_setup`: the concrete range
`base = 0x200000, mask = 1000`, first call succeeding with `base | 421`
and the 580th call exhausting the range. -/
theorem xid_next_after_setup_witness :
    (421 + 0 < 1000 ∧ (1000 : Nat) ≤ 2 ^ 32 ∧ (1000 : Nat) ≤ 421 + 579 ∧
        421 + 579 < 2 ^ 32) ∧
      (((Xid.setup 2097152 1000 Xid.init).allocN 0).alloc).1 =
        .ok ((421 + 0) ||| 2097152) := by
  refine ⟨⟨by norm_num, by norm_num, by norm_num, by norm_num⟩, ?_⟩
  exact (xid_next_after_setup 2097152 1000 0 579 (by norm_num) (by norm_num)
    (by norm_num) (by norm_num)).1

end Yaxi

namespace Yaxi

/-- C5 counterexample: for a payload of length 1 the claim demands a total
on-wire length of `1 + ((-1) mod 4) = 4`, but `recv_str` consumes only
`1 + (1 % 4) = 2` bytes: on the 4-byte stream `[9,9,9,9]` it leaves 2
bytes unread. -/
theorem recvStr_consumed_length_claim_false :
    recvStr [9, 9, 9, 9] 1 = .ok ([9], [9, 9]) ∧
      1 + ((-(1 : Int)) % 4).toNat = 4 ∧
      ([9, 9, 9, 9] : List Nat).length - ([9, 9] : List Nat).length ≠ 4 := by
  refine ⟨by decide, by decide, by decide⟩

/-- C5 (amended): `pad(len) = (4 - len % 4) % 4 = (-len) mod 4` for every
length, and `send_pad` puts exactly `L + pad(L)` bytes on the wire; but
`recv_str` consumes `L + (L % 4)` bytes - the source reads `size % 4` pad
bytes instead of `pad(size)`, so its total agrees with
`L + ((-L) mod 4)` only when `L % 4` is 0 or 2. -/
theorem pad_send_recv_spec (request input : List Nat) (L : Nat)
    (h : L + L % 4 ≤ input.length) :
    pad L = (4 - L % 4) % 4 ∧
      ((-(L : Int)) % 4).toNat = pad L ∧
      (sendPadBytes request).length = request.length + pad request.length ∧
      recvStr input L = .ok (input.take L, input.drop (L + L % 4)) ∧
      input.length - (input.drop (L + L % 4)).length = L + L % 4 := by
  have hL4 : L % 4 < 4 := Nat.mod_lt _ (by norm_num)
  refine ⟨rfl, ?_, ?_, ?_, ?_⟩
  · unfold pad
    omega
  · simp [sendPadBytes, pad]
  · have h1 : L ≤ input.length := by omega
    have h2 : L % 4 ≤ (input.drop L).length := by
      simp only [List.length_drop]
      omega
    rw [recvStr, recv, if_pos h1]
    show (recv (input.drop L) (L % 4)).bind _ = _
    rw [recv, if_pos h2]
    show Except.ok (input.take L, (input.drop L).drop (L % 4)) = _
    rw [List.drop_drop]
  · simp only [List.length_drop]
    omega

/-- Witness for `pad_send_recv_spec` at a concrete payload length. -/
theorem pad_send_recv_spec_witness :
    (1 + 1 % 4 ≤ ([9, 9, 9, 9] : List Nat).length) ∧
      recvStr [9, 9, 9, 9] 1 = .ok (([9, 9, 9, 9] : List Nat).take 1,
        ([9, 9, 9, 9] : List Nat).drop (1 + 1 % 4)) := by
  exact ⟨by decide, (pad_send_recv_spec [1, 2, 3] [9, 9, 9, 9] 1 (by decide)).2.2.2.1⟩

end Yaxi

namespace Yaxi

/-- When no pending record carries the requested id,
`SequenceManager::get` fails with `Error::InvalidId`. -/
theorem sequenceGet_not_found (sequences : List Sequence) (id : Nat)
    (h : ∀ s ∈ sequences, s.id ≠ id) :
    sequenceGet sequences id = .error .invalidId := by
  induction sequences with
  | nil => rfl
  | cons s rest ih =>
    have hs : s.id ≠ id := h s (List.mem_cons_self s rest)
    have hrest : sequenceGet rest id = .error .invalidId :=
      ih fun t ht => h t (List.mem_cons_of_mem s ht)
    simp [sequenceGet, hs, hrest]

/-- C2: a reply record (`opcode & 63 = 1`) whose 16-bit sequence number
matches no pending `(sequence, ReplyKind)` record is fatal:
`SequenceManager::get` fails with `InvalidId`, the listener loop stops at
that record (the remaining records are never processed), and the thread
wrapper posts the terminal error on the reply queue's error channel. -/
theorem listener_unknown_sequence_fatal (st : ListenerState) (ev : GenericEvent)
    (rest : List GenericEvent) (hop : ev.opcode &&& 63 = 1)
    (hseq : ∀ s ∈ st.sequences, s.id ≠ ev.sequence) :
    sequenceGet st.sequences ev.sequence = .error .invalidId ∧
      listen (ev :: rest) st = (st, some .invalidId) ∧
      (runListener (ev :: rest) st).replies.errors =
        st.replies.errors ++ [.invalidId] := by
  have hget := sequenceGet_not_found st.sequences ev.sequence hseq
  have hhr : handleReply st ev = .error .invalidId := by
    unfold handleReply
    rw [hget]
    rfl
  have hhe : handleEvent st ev = .error .invalidId := by
    unfold handleEvent
    rw [hop]
    exact hhr
  refine ⟨hget, ?_, ?_⟩
  · simp [listen, hhe]
  · simp [runListener, listen, hhe, QueueState.pushError]

/-- Witness for `listener_unknown_sequence_fatal`: one pending record for
sequence 1, an incoming reply for sequence 2. -/
theorem listener_unknown_sequence_fatal_witness :
    ((⟨1, 0, 2, []⟩ : GenericEvent).opcode &&& 63 = 1) ∧
      (∀ s ∈ ([⟨1, .internAtom⟩] : List Sequence), s.id ≠ (⟨1, 0, 2, []⟩ : GenericEvent).sequence) ∧
      listen [⟨1, 0, 2, []⟩] ⟨[⟨1, .internAtom⟩], ⟨[], []⟩, []⟩ =
        (⟨[⟨1, .internAtom⟩], ⟨[], []⟩, []⟩, some .invalidId) := by
  refine ⟨by decide, by decide, ?_⟩
  exact (listener_unknown_sequence_fatal ⟨[⟨1, .internAtom⟩], ⟨[], []⟩, []⟩
    ⟨1, 0, 2, []⟩ [] (by decide) (by decide)).2.1

end Yaxi

namespace Yaxi

/-- C8 counterexample: the keysym `0x100` (character-set byte 1, Latin-2)
makes `Keysym::character` hit `todo!("character set not yet
implemented")` - a panic - instead of returning the `InvalidKeysym`
error the claim promises, so the function is not total. -/
theorem character_non_latin1_panics :
    character 256 = .panicTodo ∧ CharOutcome.panicTodo ≠ CharOutcome.invalidKeysym := by
  refine ⟨by decide, by decide⟩

/-- C8 (amended): for every keysym whose character-set byte (bits 8..15 of
the 32-bit value) is 0 (Latin-1), `character` returns the character whose
code point is the keysym's low byte (this branch never fails, since the
low byte is always a valid scalar value); for every keysym of any other
character set it panics via `todo!` instead of returning the
`InvalidKeysym` error, so `character` is not total. -/
theorem character_spec (v : Nat) :
    (v % 2 ^ 32 / 2 ^ 8 % 2 ^ 8 = 0 → character v = .ok (v % 2 ^ 8)) ∧
      (v % 2 ^ 32 / 2 ^ 8 % 2 ^ 8 ≠ 0 → character v = .panicTodo) := by
  have hmod : v % 2 ^ 32 % 2 ^ 8 = v % 2 ^ 8 :=
    Nat.mod_mod_of_dvd v (by norm_num)
  have hcode : v % 2 ^ 32 % 2 ^ 8 + 0x20 - 32 = v % 2 ^ 8 := by
    rw [hmod]
    omega
  have hvalid : isValidCharCode (v % 2 ^ 8) :=
    Or.inl (lt_trans (Nat.mod_lt _ (by norm_num)) (by norm_num))
  constructor
  · intro h
    unfold character
    rw [if_pos h, hcode, if_pos hvalid]
  · intro h
    unfold character
    rw [if_neg h]

/-- Witness for `character_spec`: keysym `0x41` (Latin-1 'A') and keysym
`0x100` (Latin-2). -/
theorem character_spec_witness :
    ((65 : Nat) % 2 ^ 32 / 2 ^ 8 % 2 ^ 8 = 0 ∧ character 65 = .ok (65 % 2 ^ 8)) ∧
      ((256 : Nat) % 2 ^ 32 / 2 ^ 8 % 2 ^ 8 ≠ 0 ∧ character 256 = .panicTodo) := by
  exact ⟨⟨by decide, (character_spec 65).1 (by decide)⟩,
    ⟨by decide, (character_spec 256).2 (by decide)⟩⟩

/-- C10: `display::parse::parse` reads the `DISPLAY` environment variable
unconditionally: with `DISPLAY` unset it fails with `InvalidDisplay`
whatever string the caller supplied - even a well-formed one such as
`":0"`, which parses successfully once `DISPLAY` is set - and the
supplied string is handed to the parser only when `DISPLAY` is set. -/
theorem parse_reads_display_env_first :
    (∀ s, parse none s = .error .invalidDisplay) ∧
      (∀ env s, parse (some env) (some s) = parserParse s) ∧
      parserParse [':', '0'] = .ok ⟨[], .unixSocket, 0, 0⟩ := by
  refine ⟨fun s => rfl, fun env s => rfl, ?_⟩
  decide

end Yaxi

namespace Yaxi

/-! ## Cache lemmas -/

/-- After filtering out the entries of selection `S`, no key `(S, t)` can
be found. -/
theorem find?_filter_cleared (cache : Cache) (S t : Atom) :
    ((cache.filter fun e => decide (e.1.1 ≠ S)).find? fun e => e.1 == (S, t)) = none := by
  induction cache with
  | nil => rfl
  | cons e rest ih =>
    rw [List.filter_cons]
    by_cases he : e.1.1 = S
    · have hp : (decide (e.1.1 ≠ S)) = false := by simp [he]
      simp only [hp, Bool.false_eq_true, if_false]
      exact ih
    · have hp : (decide (e.1.1 ≠ S)) = true := by simp [he]
      simp only [hp, if_true]
      have hne : (e.1 == (S, t)) = false := by
        rw [beq_eq_false_iff_ne]
        intro hc
        exact he (by rw [hc])
      simp only [List.find?, hne]
      exact ih

/-- Filtering out the entries of selection `S` does not change lookup of
a key under a different selection `S'`. -/
theorem find?_filter_other (cache : Cache) (S S' t : Atom) (h : S' ≠ S) :
    ((cache.filter fun e => decide (e.1.1 ≠ S)).find? fun e => e.1 == (S', t)) =
      cache.find? fun e => e.1 == (S', t) := by
  induction cache with
  | nil => rfl
  | cons e rest ih =>
    rw [List.filter_cons]
    by_cases he : e.1.1 = S
    · have hp : (decide (e.1.1 ≠ S)) = false := by simp [he]
      simp only [hp, Bool.false_eq_true, if_false]
      have hne : (e.1 == (S', t)) = false := by
        rw [beq_eq_false_iff_ne]
        intro hc
        apply h
        rw [← he, hc]
      simp only [List.find?, hne]
      exact ih
    · have hp : (decide (e.1.1 ≠ S)) = true := by simp [he]
      simp only [hp, if_true]
      cases hb : (e.1 == (S', t)) with
      | true => simp only [List.find?, hb]
      | false =>
        simp only [List.find?, hb]
        exact ih

/-- After `clear_selection S` no entry keyed on `S` can be found. -/
theorem cacheGet_clearSelection_self (cache : Cache) (S t : Atom) :
    cacheGet (clearSelection cache S) S t = none := by
  unfold cacheGet clearSelection
  rw [find?_filter_cleared]
  rfl

/-- Entries of a different selection are untouched by `clear_selection`. -/
theorem cacheGet_clearSelection_other (cache : Cache) (S S' t : Atom)
    (h : S' ≠ S) :
    cacheGet (clearSelection cache S) S' t = cacheGet cache S' t := by
  unfold cacheGet clearSelection
  rw [find?_filter_other cache S S' t h]

/-- C9: handling `SelectionClear` for selection `S` removes exactly the
cache entries whose key's first component is `S`: afterwards no
`(S, target)` lookup succeeds, every lookup under a different selection
is unchanged, and an entry survives iff it was present and keyed on a
different selection. -/
theorem handleSelectionClear_spec (cache : Cache) (owner : Nat) (S : Atom)
    (time : Nat) (S' t : Atom) (h : S' ≠ S) :
    cacheGet (handleSelectionClear cache owner S time) S t = none ∧
      cacheGet (handleSelectionClear cache owner S time) S' t = cacheGet cache S' t ∧
      (∀ e : (Atom × Atom) × ClipboardData,
        e ∈ handleSelectionClear cache owner S time ↔ e ∈ cache ∧ e.1.1 ≠ S) := by
  refine ⟨cacheGet_clearSelection_self cache S t,
    cacheGet_clearSelection_other cache S S' t h, ?_⟩
  intro e
  simp [handleSelectionClear, clearSelection, List.mem_filter]

/-- Witness for `handleSelectionClear_spec` on a concrete two-entry
cache. -/
theorem handleSelectionClear_spec_witness :
    (3 : Atom) ≠ (1 : Atom) ∧
      cacheGet (handleSelectionClear
        [((1, 2), ⟨[10], 2, 0⟩), ((3, 4), ⟨[20], 4, 0⟩)] 9 1 0) 1 2 = none := by
  exact ⟨by decide,
    (handleSelectionClear_spec [((1, 2), ⟨[10], 2, 0⟩), ((3, 4), ⟨[20], 4, 0⟩)]
      9 1 0 3 2 (by decide)).1⟩

end Yaxi

namespace Yaxi

/-- C7 counterexample: with the sample atom assignment and an empty cache
for selection 1, the spec's advertised set contains `TIMESTAMP` but the
list built by `Cache::get_targets` does not (it instead adds
`SAVE_TARGETS` and `TARGET_SIZES`), so the two sets differ. -/
theorem getTargets_claim_false :
    sampleAtoms.timestamp ∈ specTargets sampleAtoms [] 1 ∧
      sampleAtoms.timestamp ∉ getTargets sampleAtoms [] 1 := by
  refine ⟨by decide, by decide⟩

/-- C7 (amended): the advertised target list built from the cache consists
exactly of the four special atoms `MULTIPLE`, `SAVE_TARGETS`, `TARGETS`
and `TARGET_SIZES` (not `TIMESTAMP`) together with the target atom of
each cached entry of the selection whose target is not a side-effect
target. -/
theorem getTargets_mem (p : ProtocolAtoms) (cache : Cache) (S a : Atom) :
    a ∈ getTargets p cache S ↔
      a = p.multiple ∨ a = p.saveTargets ∨ a = p.targets ∨ a = p.targetSizes ∨
        ∃ e : (Atom × Atom) × ClipboardData,
          e ∈ cache ∧ e.1.1 = S ∧ isSideEffectTarget p e.1.2 = false ∧ e.1.2 = a := by
  simp only [getTargets, List.mem_append, List.mem_map, List.mem_filter,
    Bool.and_eq_true, beq_iff_eq, Bool.not_eq_true', List.mem_cons,
    List.mem_singleton, List.not_mem_nil, or_false]
  constructor
  · rintro (⟨e, ⟨⟨hmem, hsel, hside⟩, heq⟩⟩ | h)
    · exact Or.inr (Or.inr (Or.inr (Or.inr ⟨e, hmem, hsel, hside, heq⟩)))
    · tauto
  · rintro (h | h | h | h | ⟨e, hmem, hsel, hside, heq⟩)
    · tauto
    · tauto
    · tauto
    · tauto
    · exact Or.inl ⟨e, ⟨⟨hmem, hsel, hside⟩, heq⟩⟩

end Yaxi

namespace Yaxi

/-- Concatenating the chunks produced by `chunksOf` (with a positive
chunk size) restores the original list; proved by strong induction on a
length bound. -/
theorem chunksOf_join_bounded (n : Nat) (hn : 0 < n) :
    ∀ (N : Nat) (l : List α), l.length ≤ N → (chunksOf n l).flatten = l := by
  intro N
  induction N with
  | zero =>
    intro l hl
    have h0 : l.length = 0 := Nat.le_zero.mp hl
    rw [chunksOf, dif_pos (Or.inl h0)]
    rw [List.length_eq_zero.mp h0]
    rfl
  | succ N ih =>
    intro l hl
    rcases Nat.eq_zero_or_pos l.length with h0 | hpos
    · rw [chunksOf, dif_pos (Or.inl h0)]
      rw [List.length_eq_zero.mp h0]
      rfl
    · rw [chunksOf, dif_neg (by omega)]
      rw [List.flatten_cons]
      rw [ih (l.drop n) (by simp only [List.length_drop]; omega)]
      exact List.take_append_drop n l

/-- Concatenating the chunks of `chunksOf n l` (with `0 < n`) yields
`l`. -/
theorem chunksOf_join (n : Nat) (l : List α) (hn : 0 < n) :
    (chunksOf n l).flatten = l :=
  chunksOf_join_bounded n hn l.length l le_rfl

/-- Every chunk produced by `chunksOf n` has at most `n` elements. -/
theorem chunksOf_length_le (n : Nat) :
    ∀ (N : Nat) (l : List α), l.length ≤ N → ∀ c ∈ chunksOf n l, c.length ≤ n := by
  intro N
  induction N with
  | zero =>
    intro l hl c hc
    have h0 : l.length = 0 := Nat.le_zero.mp hl
    rw [chunksOf, dif_pos (Or.inl h0)] at hc
    exact absurd hc (List.not_mem_nil c)
  | succ N ih =>
    intro l hl c hc
    rcases Nat.eq_zero_or_pos l.length with h0 | hpos
    · rw [chunksOf, dif_pos (Or.inl h0)] at hc
      exact absurd hc (List.not_mem_nil c)
    · rcases Nat.eq_zero_or_pos n with hn0 | hnpos
      · rw [chunksOf, dif_pos (Or.inr hn0)] at hc
        exact absurd hc (List.not_mem_nil c)
      · rw [chunksOf, dif_neg (by omega)] at hc
        rcases List.mem_cons.mp hc with hc1 | hc2
        · rw [hc1]
          exact List.length_take_le n l
        · exact ih (l.drop n) (by simp only [List.length_drop]; omega) c hc2

/-- C6: serving a `SelectionRequest` from the cache via
`EventHandler::send_data`: for a cached value larger than
`MAX_REGULAR_SIZE = 65536` bytes the trace of `change_property` calls is
the 32-bit total size written with type `INCR` in `Format32, Replace`,
then the value in chunks of at most `INCR_CHUNK_SIZE = 4096` bytes each
(`Format8, Replace`, type = the data's format atom) whose concatenation
equals the value exactly, and finally one empty property write; a value
of at most 65536 bytes is written unchanged with a single
`change_property` call. -/
theorem sendData_spec (p : ProtocolAtoms) (data : ClipboardData)
    (property target : Atom) :
    (data.bytes.length > MAX_REGULAR_SIZE →
        ∃ chunks : List (List Nat),
          sendData p data property target =
            ⟨if atomIsNull property then target else property, p.incr, .format32,
                .replace, u32NeBytes (data.bytes.length % 2 ^ 32)⟩
              :: ((chunks.map fun chunk =>
                    ⟨if atomIsNull property then target else property, data.format,
                      .format8, .replace, chunk⟩)
                  ++ [⟨if atomIsNull property then target else property, data.format,
                        .format8, .replace, []⟩]) ∧
            chunks.flatten = data.bytes ∧
            ∀ chunk ∈ chunks, chunk.length ≤ INCR_CHUNK_SIZE) ∧
      (data.bytes.length ≤ MAX_REGULAR_SIZE →
        sendData p data property target =
          [⟨if atomIsNull property then target else property, data.format, .format8,
            .replace, data.bytes⟩]) := by
  constructor
  · intro h
    refine ⟨chunksOf INCR_CHUNK_SIZE data.bytes, ?_, ?_, ?_⟩
    · rw [sendData, if_pos h]
    · exact chunksOf_join INCR_CHUNK_SIZE data.bytes (by norm_num [INCR_CHUNK_SIZE])
    · exact chunksOf_length_le INCR_CHUNK_SIZE data.bytes.length data.bytes le_rfl
  · intro h
    rw [sendData, if_neg (by omega)]

/-- Witness for `sendData_spec`: a 65537-byte value (INCR branch) and a
2-byte value (regular branch). -/
theorem sendData_spec_witness :
    ((⟨List.replicate 65537 0, 7, 0⟩ : ClipboardData).bytes.length > MAX_REGULAR_SIZE ∧
        ∃ chunks : List (List Nat),
          sendData sampleAtoms ⟨List.replicate 65537 0, 7, 0⟩ 5 6 =
            ⟨if atomIsNull 5 then 6 else 5, sampleAtoms.incr, .format32, .replace,
                u32NeBytes ((⟨List.replicate 65537 0, 7, 0⟩ : ClipboardData).bytes.length % 2 ^ 32)⟩
              :: ((chunks.map fun chunk =>
                    ⟨if atomIsNull 5 then 6 else 5,
                      (⟨List.replicate 65537 0, 7, 0⟩ : ClipboardData).format,
                      .format8, .replace, chunk⟩)
                  ++ [⟨if atomIsNull 5 then 6 else 5,
                        (⟨List.replicate 65537 0, 7, 0⟩ : ClipboardData).format,
                        .format8, .replace, []⟩]) ∧
            chunks.flatten = (⟨List.replicate 65537 0, 7, 0⟩ : ClipboardData).bytes ∧
            ∀ chunk ∈ chunks, chunk.length ≤ INCR_CHUNK_SIZE) ∧
      ((⟨[1, 2], 7, 0⟩ : ClipboardData).bytes.length ≤ MAX_REGULAR_SIZE ∧
        sendData sampleAtoms ⟨[1, 2], 7, 0⟩ 5 6 =
          [⟨if atomIsNull 5 then 6 else 5, (⟨[1, 2], 7, 0⟩ : ClipboardData).format,
            .format8, .replace, (⟨[1, 2], 7, 0⟩ : ClipboardData).bytes⟩]) := by
  have h1 : (⟨List.replicate 65537 0, 7, 0⟩ : ClipboardData).bytes.length >
      MAX_REGULAR_SIZE := by
    show (List.replicate 65537 (0 : Nat)).length > MAX_REGULAR_SIZE
    rw [List.length_replicate]
    norm_num [MAX_REGULAR_SIZE]
  have h2 : (⟨[1, 2], 7, 0⟩ : ClipboardData).bytes.length ≤ MAX_REGULAR_SIZE := by
    show ([1, 2] : List Nat).length ≤ MAX_REGULAR_SIZE
    norm_num [MAX_REGULAR_SIZE]
  exact ⟨⟨h1, (sendData_spec sampleAtoms ⟨List.replicate 65537 0, 7, 0⟩ 5 6).1 h1⟩,
    ⟨h2, (sendData_spec sampleAtoms ⟨[1, 2], 7, 0⟩ 5 6).2 h2⟩⟩

end Yaxi
